import Mathlib

/-!
Verification development for the kube-arangodb backup lifecycle controller.

The backup state machine, reconciler, policy scheduler and restore bridge are
specified in spec.md; the controller implementation itself is not part of the
source tree under verification (only its end-to-end tests are), so those
components are modelled from the specification text, faithfully to its words.
The member state inspector, the remove-member action and the logging helper
are embedded directly from their Go source files.
-/

namespace KubeArango

/-! ## Data model of the ArangoBackup custom resource (spec.md section 3.1) -/

/-- Modelled from the spec: the `status.state` phase enum of an ArangoBackup
(section 3.1); the empty string state of a new resource is `initial`. -/
inductive ArangoBackupState
  | initial
  | pending
  | scheduled
  | create
  | upload
  | download
  | downloadError
  | ready
  | deleted
  | failed
deriving DecidableEq, Repr

/-- Modelled from the spec: the last observed progress of a remote job,
a pair of the job handle and a percentage (section 3.1). -/
structure ArangoBackupProgress where
  jobID : String
  percent : Nat
deriving DecidableEq, Repr

/-- Modelled from the spec: `status.backup`, populated once a DB-side backup
is associated with the resource (section 3.1). -/
structure ArangoBackupDetails where
  id : String
  version : String
  uploaded : Option Bool
  downloaded : Option Bool
  createdAt : Nat
deriving DecidableEq, Repr

/-- Modelled from the spec: the full status of an ArangoBackup resource
(section 3.1). The `attempts` counter carries the bounded-retry bookkeeping
of the Create state (section 4.2, "stay Create (bounded retries)"). -/
structure ArangoBackupStatus where
  state : ArangoBackupState
  message : String
  progress : Option ArangoBackupProgress
  backup : Option ArangoBackupDetails
  available : Bool
  attempts : Nat
deriving DecidableEq, Repr

/-- Modelled from the spec: DB-specific create options (section 3.1). -/
structure ArangoBackupSpecOptions where
  timeout : Option Nat
  allowInconsistent : Option Bool
deriving DecidableEq, Repr

/-- Modelled from the spec: `spec.upload`, a repository and a credentials
secret name (section 3.1). -/
structure ArangoBackupSpecOperation where
  repositoryURL : String
  credentialsSecretName : String
deriving DecidableEq, Repr

/-- Modelled from the spec: `spec.download`, an upload operation plus the
remote backup id to adopt (section 3.1). -/
structure ArangoBackupSpecDownload where
  repositoryURL : String
  credentialsSecretName : String
  id : String
deriving DecidableEq, Repr

/-- Modelled from the spec: the spec of an ArangoBackup resource
(section 3.1). -/
structure ArangoBackupSpec where
  deploymentName : String
  options : Option ArangoBackupSpecOptions
  upload : Option ArangoBackupSpecOperation
  download : Option ArangoBackupSpecDownload
deriving DecidableEq, Repr

/-! ## Observations and side effects (spec.md sections 4.1 and 4.2) -/

/-- Modelled from the spec: the outcome of the synchronous `Create` DB call
(section 4.1); failures are split into retriable and permanent classes
(section 7). -/
inductive CreateOutcome
  | success (id : String) (version : String) (createdAt : Nat)
  | retriable (msg : String)
  | permanent (msg : String)
deriving DecidableEq, Repr

/-- Modelled from the spec: the result of a `Progress(jobID)` poll
(section 4.1). -/
structure JobProgress where
  done : Bool
  failed : Bool
  percent : Nat
  message : String
deriving DecidableEq, Repr

/-- Modelled from the spec: the observations gathered by one reconcile pass
(sections 4.2 and 4.3 step 3). `existingJob` is the job discovered through
`List`/`Progress` during the recovery lookup of section 4.3 step 5;
`freshJobID` is the handle the DB returns if a new job is started in this
pass; `specChanged` is the observation that the resource spec changed since
the last pass (the DownloadError trigger of section 4.2). -/
structure Observations where
  deploymentExists : Bool
  dbSideBackupPresent : Bool
  jobStatus : Option JobProgress
  existingJob : Option String
  freshJobID : String
  createOutcome : CreateOutcome
  specChanged : Bool
  wallClock : Nat
deriving Repr

/-- Modelled from the spec: the side effects a reconcile pass can issue
against the DB Backup Client (sections 2 and 4.1). -/
inductive SideEffect
  | createCall (options : Option ArangoBackupSpecOptions)
  | uploadCall (id : String) (repositoryURL : String) (credentialsSecretName : String)
  | downloadCall (id : String) (repositoryURL : String) (credentialsSecretName : String)
  | deleteCall (id : String)
deriving DecidableEq, Repr

/-- True exactly for the non-idempotent long-running job calls `Upload` and
`Download` (section 4.1). -/
def SideEffect.isJobCall : SideEffect → Bool
  | .uploadCall _ _ _ => true
  | .downloadCall _ _ _ => true
  | _ => false

/-- True exactly for the `Create` call. -/
def SideEffect.isCreate : SideEffect → Bool
  | .createCall _ => true
  | _ => false

/-- Modelled from the spec: the bound on Create retries ("stay Create
(bounded retries)", section 4.2); the exact bound is not fixed by the spec. -/
def createRetryLimit : Nat := 5

/-! ## The backup state machine (spec.md section 4.2)

The machine is the pure function `(status, spec, observations) to
(next status, side effects)` of section 2, with the transition table of
section 4.2 read in row order (so the upload request takes precedence over
the cleared-marker transition, which takes precedence over the disappearance
transition, matching the tie-break notes). The job handle returned by a
newly issued `Upload`/`Download` call is threaded in through
`Observations.freshJobID`: in the reconciler it is written into the status
by the second phase of the two-phase write of section 4.3 step 5. -/

/-- Modelled from the spec: the backup state machine of section 4.2, a total
pure function over `(status.state, spec, observations)`. -/
def arangoBackupStateMachine (st : ArangoBackupStatus) (sp : ArangoBackupSpec)
    (obs : Observations) : ArangoBackupStatus × List SideEffect :=
  match st.state with
  | .initial => ({ st with state := .pending }, [])
  | .pending =>
      if obs.deploymentExists then
        match sp.download with
        | some _ => ({ st with state := .download, progress := none }, [])
        | none => ({ st with state := .create }, [])
      else
        ({ st with message := "deployment does not exist" }, [])
  | .scheduled => (st, [])
  | .create =>
      match obs.createOutcome with
      | .success i v t =>
          ({ st with state := .ready,
                     backup := some { id := i, version := v, uploaded := none,
                                      downloaded := none, createdAt := t },
                     available := true },
           [.createCall sp.options])
      | .retriable m =>
          if st.attempts + 1 < createRetryLimit then
            ({ st with attempts := st.attempts + 1, message := m }, [.createCall sp.options])
          else
            ({ st with state := .failed, message := m }, [.createCall sp.options])
      | .permanent m =>
          ({ st with state := .failed, message := m }, [.createCall sp.options])
  | .download =>
      match sp.download with
      | none => ({ st with state := .failed, message := "download spec removed" }, [])
      | some d =>
          match st.progress with
          | some p =>
              match obs.jobStatus with
              | some j =>
                  if j.failed then
                    ({ st with state := .downloadError, message := j.message,
                               progress := none }, [])
                  else if j.done then
                    ({ st with state := .ready, progress := none,
                               backup := some (match st.backup with
                                 | some b => { b with id := d.id, downloaded := some true }
                                 | none => { id := d.id, version := "", uploaded := none,
                                             downloaded := some true,
                                             createdAt := obs.wallClock }),
                               available := true }, [])
                  else
                    ({ st with progress := some { p with percent := j.percent } }, [])
              | none => ({ st with progress := none }, [])
          | none =>
              match obs.existingJob with
              | some j => ({ st with progress := some { jobID := j, percent := 0 } }, [])
              | none =>
                  ({ st with progress := some { jobID := obs.freshJobID, percent := 0 } },
                   [.downloadCall d.id d.repositoryURL d.credentialsSecretName])
  | .downloadError =>
      match sp.download with
      | some _ =>
          if obs.specChanged then
            ({ st with state := .download, progress := none }, [])
          else (st, [])
      | none => (st, [])
  | .ready =>
      match st.backup with
      | none => ({ st with state := .failed, message := "no backup associated" }, [])
      | some b =>
          if sp.upload.isSome && !(b.uploaded == some true) then
            ({ st with state := .upload, progress := none }, [])
          else if sp.upload.isNone && (b.uploaded == some true) then
            ({ st with backup := some { b with uploaded := none } }, [])
          else if !obs.dbSideBackupPresent then
            ({ st with state := .deleted, available := false }, [])
          else (st, [])
  | .upload =>
      match sp.upload, st.backup with
      | some u, some b =>
          match st.progress with
          | some p =>
              match obs.jobStatus with
              | some j =>
                  if j.failed then
                    ({ st with state := .ready, message := j.message, progress := none }, [])
                  else if j.done then
                    ({ st with state := .ready, progress := none,
                               backup := some { b with uploaded := some true } }, [])
                  else
                    ({ st with progress := some { p with percent := j.percent } }, [])
              | none => ({ st with progress := none }, [])
          | none =>
              match obs.existingJob with
              | some j => ({ st with progress := some { jobID := j, percent := 0 } }, [])
              | none =>
                  ({ st with progress := some { jobID := obs.freshJobID, percent := 0 } },
                   [.uploadCall b.id u.repositoryURL u.credentialsSecretName])
      | none, some _ => ({ st with state := .ready, progress := none }, [])
      | _, none => ({ st with state := .failed, message := "no backup associated" }, [])
  | .deleted =>
      match sp.download with
      | some _ => ({ st with state := .download, progress := none }, [])
      | none => (st, [])
  | .failed => (st, [])

/-- The status of a freshly created ArangoBackup resource: empty state, no
associated backup, not available. -/
def initialBackupStatus : ArangoBackupStatus :=
  { state := .initial, message := "", progress := none, backup := none,
    available := false, attempts := 0 }

/-! ## Reconcile traces (spec.md sections 4.3 and 5)

One Backup CR is reconciled by serialized passes (section 5: at most one
in-flight reconcile per resource). A trace interleaves reconcile passes,
background progress of the DB-side jobs, a user deletion request, and the
finalize pass of section 4.3 step 1. The two-phase write of section 4.3
step 5 is modelled by two crash variants of the pass: `reconcileCrashEarly`
persists the in-flight status but crashes before the DB call is issued, and
`reconcileCrashMid` crashes between issuing the call and persisting the
returned job handle. -/

/-- Phase of a DB-side upload or download job. -/
inductive JobPhase
  | running
  | done
  | failed
deriving DecidableEq, Repr

/-- A DB-side long-running job: the handle returned by `Upload`/`Download`
and its current phase. -/
structure DBJob where
  jobID : String
  phase : JobPhase
deriving DecidableEq, Repr

/-- The DB-side job ledger for one Backup CR: one entry per issued
`Upload`/`Download` call, in issue order. -/
structure DBJobs where
  jobs : List DBJob
deriving DecidableEq, Repr

/-- The job the DB currently reports as active, if any: what the recovery
lookup of section 4.3 step 5 observes through `List`/`Progress`. -/
def runningJob (db : DBJobs) : Option String :=
  (db.jobs.find? (fun j => j.phase == .running)).map (fun j => j.jobID)

/-- Number of running jobs in the ledger. -/
def runningCount (db : DBJobs) : Nat :=
  db.jobs.countP (fun j => j.phase == .running)

/-- Number of completed (terminated, either successfully or not) jobs. -/
def completedCount (db : DBJobs) : Nat :=
  db.jobs.countP (fun j => !(j.phase == .running))

/-- Start one DB-side job for every `Upload`/`Download` call in the issued
effect list, using the handle the pass observed as `freshJobID`. -/
def startJobs (db : DBJobs) (obs : Observations) (effs : List SideEffect) : DBJobs :=
  { jobs := db.jobs ++ (effs.filter SideEffect.isJobCall).map
      (fun _ => { jobID := obs.freshJobID, phase := .running }) }

/-- Terminate the job at position `n` of the ledger with terminal phase
`ph`. -/
def terminateJob (db : DBJobs) (n : Nat) (ph : JobPhase) : DBJobs :=
  { jobs := db.jobs.set n
      (match db.jobs.get? n with
       | some j => { j with phase := ph }
       | none => { jobID := "", phase := ph }) }

/-- The phase-one write of section 4.3 step 5: the in-flight status with the
job handle cleared. -/
def inFlightWrite (st : ArangoBackupStatus) : ArangoBackupStatus :=
  { st with progress := none }

/-- Ghost bookkeeping: the set of backup ids ever recorded in the persisted
status along the trace. -/
def recordEverIds (ever : List String) (st : ArangoBackupStatus) : List String :=
  match st.backup with
  | some b => if b.id ∈ ever then ever else b.id :: ever
  | none => ever

/-- The whole observable state of a trace of one Backup CR: the persisted
status, the per-resource finalizer and deletion flags, the DB-side job
ledger, the log of every DB call issued so far (newest first), and the ghost
record of backup ids ever persisted. -/
structure World where
  status : ArangoBackupStatus
  db : DBJobs
  finalizer : Bool
  deletionRequested : Bool
  log : List SideEffect
  everIds : List String
deriving Repr

/-- Observation soundness for a pass: the recovery lookup through
`List`/`Progress` reports exactly the job the DB holds as running
(section 4.3 step 5 relies on this lookup before re-issuing). All other
observation components are unconstrained. -/
def obsSound (db : DBJobs) (obs : Observations) : Prop :=
  obs.existingJob = runningJob db

/-- Modelled from the spec: one atomic step of a reconcile trace of one
Backup CR (sections 4.3 and 5). Reconcile passes run only while the CR
exists (finalizer present) and is not marked for deletion; the finalize pass
of section 4.3 step 1 issues `Delete` on the associated backup and clears
the finalizer. -/
inductive TraceStep (sp : ArangoBackupSpec) : World → World → Prop
  | reconcile (w : World) (obs : Observations)
      (hfin : w.finalizer = true) (hdel : w.deletionRequested = false)
      (hobs : obsSound w.db obs) :
      TraceStep sp w
        { status := (arangoBackupStateMachine w.status sp obs).1,
          db := startJobs w.db obs (arangoBackupStateMachine w.status sp obs).2,
          finalizer := w.finalizer,
          deletionRequested := w.deletionRequested,
          log := (arangoBackupStateMachine w.status sp obs).2 ++ w.log,
          everIds := recordEverIds w.everIds (arangoBackupStateMachine w.status sp obs).1 }
  | reconcileCrashEarly (w : World) (obs : Observations)
      (hfin : w.finalizer = true) (hdel : w.deletionRequested = false)
      (hobs : obsSound w.db obs)
      (hjob : (arangoBackupStateMachine w.status sp obs).2.any SideEffect.isJobCall = true) :
      TraceStep sp w
        { status := inFlightWrite (arangoBackupStateMachine w.status sp obs).1,
          db := w.db,
          finalizer := w.finalizer,
          deletionRequested := w.deletionRequested,
          log := w.log,
          everIds := recordEverIds w.everIds
            (inFlightWrite (arangoBackupStateMachine w.status sp obs).1) }
  | reconcileCrashMid (w : World) (obs : Observations)
      (hfin : w.finalizer = true) (hdel : w.deletionRequested = false)
      (hobs : obsSound w.db obs)
      (hjob : (arangoBackupStateMachine w.status sp obs).2.any SideEffect.isJobCall = true) :
      TraceStep sp w
        { status := inFlightWrite (arangoBackupStateMachine w.status sp obs).1,
          db := startJobs w.db obs (arangoBackupStateMachine w.status sp obs).2,
          finalizer := w.finalizer,
          deletionRequested := w.deletionRequested,
          log := (arangoBackupStateMachine w.status sp obs).2 ++ w.log,
          everIds := recordEverIds w.everIds
            (inFlightWrite (arangoBackupStateMachine w.status sp obs).1) }
  | jobTerminates (w : World) (n : Nat) (ph : JobPhase)
      (hrun : (w.db.jobs.get? n).map (fun j => j.phase) = some .running)
      (hterm : ph ≠ .running) :
      TraceStep sp w { w with db := terminateJob w.db n ph }
  | requestDeletion (w : World)
      (hdel : w.deletionRequested = false) :
      TraceStep sp w { w with deletionRequested := true }
  | finalize (w : World)
      (hfin : w.finalizer = true) (hdel : w.deletionRequested = true) :
      TraceStep sp w
        { w with finalizer := false,
                 log := (match w.status.backup with
                         | some b => [SideEffect.deleteCall b.id]
                         | none => []) ++ w.log }

/-- The initial world of a trace: a fresh CR with the finalizer present, no
DB-side jobs, nothing issued. -/
def initialWorld : World :=
  { status := initialBackupStatus, db := { jobs := [] }, finalizer := true,
    deletionRequested := false, log := [], everIds := [] }

/-- Worlds reachable along some reconcile trace of one Backup CR with the
fixed spec `sp`. -/
inductive ReachableWorld (sp : ArangoBackupSpec) : World → Prop
  | init : ReachableWorld sp initialWorld
  | step {w w2 : World} : ReachableWorld sp w → TraceStep sp w w2 → ReachableWorld sp w2

/-! ## Restore bridge (spec.md section 4.6)

The restore bridge and the Deployment controller restore handling are not in
the source tree (only the end-to-end test exercises them), so they are
modelled from the specification text. -/

/-- An ArangoBackup resource as the restore bridge sees it: identity plus
status. -/
structure BackupResource where
  inNamespace : String
  name : String
  status : ArangoBackupStatus
deriving Repr

/-- Modelled from the spec: the result of `Lookup(namespace, name)` on the
restore bridge (section 4.6). -/
structure LookupResult where
  found : Bool
  ready : Bool
  dbBackupID : String
deriving DecidableEq, Repr

/-- Modelled from the spec: `Lookup(namespace, name)` on the restore bridge
(section 4.6): whether a named Backup exists, whether it is Ready, and the
DB-side backup id it points to. -/
def restoreBridgeLookup (backups : List BackupResource) (ns nm : String) : LookupResult :=
  match backups.find? (fun b => b.inNamespace == ns && b.name == nm) with
  | none => { found := false, ready := false, dbBackupID := "" }
  | some b =>
      { found := true,
        ready := b.status.state == .ready,
        dbBackupID := match b.status.backup with
                      | some d => d.id
                      | none => "" }

/-- Modelled from the spec: `ArangoDeployment.status.restore` written by the
Deployment controller (sections 4.6 and 6). -/
structure DeploymentRestoreStatus where
  requestedFrom : String
  restored : Bool
  message : String
deriving DecidableEq, Repr

/-- Modelled from the spec: the Deployment controller consulting the restore
bridge when `spec.restoreFrom` is non-empty and writing `status.restore`
(section 4.6); a missing Backup yields found = false and `restored = false`
with a message. -/
def deploymentApplyRestore (backups : List BackupResource) (ns nm : String) :
    DeploymentRestoreStatus :=
  let r := restoreBridgeLookup backups ns nm
  if !r.found then
    { requestedFrom := nm, restored := false, message := "backup resource does not exist" }
  else if r.ready then
    { requestedFrom := nm, restored := true, message := "" }
  else
    { requestedFrom := nm, restored := false, message := "backup resource is not ready" }

/-! ## Member state inspector (source: the member package, stateInspector) -/

/-- Embedded from the source: driver.VersionInfo, reduced to the fields the
inspector stores. -/
structure VersionInfo where
  server : String
  version : String
  license : String
deriving DecidableEq, Repr

/-- Embedded from the source: `State` of the member package; `reachable`
holds the error of the last reachability check (`none` is the Go nil
error). -/
structure MemberInspState where
  reachable : Option String
  version : VersionInfo
deriving DecidableEq, Repr

/-- The Go zero value of `State`: nil error, zero version info. -/
def zeroMemberInspState : MemberInspState :=
  { reachable := none, version := { server := "", version := "", license := "" } }

/-- Embedded from the source: `State.IsReachable`, true when the stored
error is nil. -/
def MemberInspState.isReachable (s : MemberInspState) : Bool :=
  s.reachable == none

/-- Embedded from the source: `State.IsInvalid`, the negation of
`IsReachable`. -/
def MemberInspState.isInvalid (s : MemberInspState) : Bool :=
  !s.isReachable

/-- A field attached to a zerolog event by the logging helpers. -/
inductive LogField
  | boolField (name : String) (value : Bool)
  | anErr (name : String) (value : Option String)
deriving DecidableEq, Repr

/-- A zerolog event, abstracted as the ordered list of fields attached so
far. -/
abbrev LogEvent := List LogField

/-- Embedded from the source: `State.Log`, which attaches reachability
fields to a zerolog event. In the unreachable branch it attaches
`reachable = false` together with `reachableError`; in the reachable branch
it attaches `reachable = false` as well. -/
def MemberInspState.logEvent (s : MemberInspState) (event : LogEvent) : LogEvent :=
  if !s.isReachable then
    event ++ [.boolField "reachable" false, .anErr "reachableError" s.reachable]
  else
    event ++ [.boolField "reachable" false]

/-- Embedded from the source: the `stateInspector` record. The Go `members`
field is a map that is nil until the first `RefreshState`; it is modelled as
an optional association list. -/
structure StateInspectorData where
  members : Option (List (String × MemberInspState))
  state : MemberInspState
deriving Repr

/-- Embedded from the source: `stateInspector.MemberState(id)`. When the
members map is nil it returns the zero `State` and false; otherwise it
returns the map entry and whether it was present. -/
def memberStateLookup (s : StateInspectorData) (id : String) : MemberInspState × Bool :=
  match s.members with
  | none => (zeroMemberInspState, false)
  | some ms =>
      match ms.find? (fun e => e.1 == id) with
      | some e => (e.2, true)
      | none => (zeroMemberInspState, false)

/-! ## Remove-member action (source: action_remove_member.go) -/

/-- Embedded from the source: the server groups relevant to
`actionRemoveMember.Start`. -/
inductive ServerGroup
  | agents
  | coordinators
  | dbservers
  | single
deriving DecidableEq, Repr

/-- Embedded from the source: the fields of a member status read by
`actionRemoveMember.Start`; `terminating` reflects
`Conditions.IsTrue(ConditionTypeTerminating)`. -/
structure RMMemberStatus where
  id : String
  podName : String
  persistentVolumeClaimName : String
  terminating : Bool
deriving DecidableEq, Repr

/-- Classification of a go-driver error as tested by the source:
`driver.IsNotFound`, `driver.IsPreconditionFailed`, or anything else. -/
inductive DriverErrorKind
  | notFoundErr
  | preconditionFailedErr
  | otherErr (msg : String)
deriving DecidableEq, Repr

/-- Result of a Kubernetes delete call as tested by the source: success, a
NotFound error (ignored), or another error (propagated). -/
inductive KubeDeleteResult
  | ok
  | missing
  | failedWith (msg : String)
deriving DecidableEq, Repr

/-- Embedded from the source: the server health entry status; the source
only compares against `driver.ServerStatusFailed`. -/
inductive ServerHealthStatus
  | statusFailed
  | statusGood
deriving DecidableEq, Repr

/-- The calls `actionRemoveMember.Start` can issue against the cluster and
the Kubernetes API. -/
inductive RMCall
  | removeServerFromCluster (id : String)
  | deletePod (name : String)
  | deletePvc (name : String)
  | removeMemberByID (id : String)
deriving DecidableEq, Repr

/-- The action context of `actionRemoveMember.Start`, with the outcomes of
every external call it may perform supplied as oracles. -/
structure RMContext where
  memberStatusByID : String → Option RMMemberStatus
  databaseClientErr : Option String
  removeServerErr : Option DriverErrorKind
  deploymentHealthErr : Option String
  health : List (String × ServerHealthStatus)
  deletePodResult : KubeDeleteResult
  deletePvcResult : KubeDeleteResult
  removeMemberErr : Option String
  statusUpdateErr : Option String
  memberStillExistsAfterRemoval : Bool

/-- The action parameters of `actionRemoveMember.Start`. -/
structure RMAction where
  memberID : String
  group : ServerGroup
deriving DecidableEq, Repr

/-- The observable outcome of `actionRemoveMember.Start`: the returned
(ready, error) pair plus the list of cluster and Kubernetes calls issued. -/
structure RMResult where
  finished : Bool
  err : Option String
  calls : List RMCall
deriving DecidableEq, Repr

/-- Embedded from the source: the cluster-removal section of
`actionRemoveMember.Start` for coordinators and dbservers. Returns either an
early error result or the calls issued so far. -/
def rmClusterSection (ctx : RMContext) (a : RMAction) (m : RMMemberStatus) :
    Sum RMResult (List RMCall) :=
  if a.group == .coordinators || a.group == .dbservers then
    match ctx.databaseClientErr with
    | some e => Sum.inl { finished := false, err := some e, calls := [] }
    | none =>
        let calls := [RMCall.removeServerFromCluster m.id]
        match ctx.removeServerErr with
        | none => Sum.inr calls
        | some k =>
            match k with
            | .otherErr _ => Sum.inr calls
            | .preconditionFailedErr =>
                match ctx.deploymentHealthErr with
                | some e =>
                    Sum.inl { finished := false,
                              err := some ("failed to get cluster health: " ++ e),
                              calls := calls }
                | none =>
                    match (ctx.health.find? (fun h => h.1 == m.id)).map (fun h => h.2) with
                    | some record =>
                        if m.terminating then
                          if !(record == .statusFailed) then
                            Sum.inl { finished := false,
                                      err := some "can not remove server from cluster. Not yet terminated. Retry later",
                                      calls := calls }
                          else Sum.inr calls
                        else Sum.inr calls
                    | none => Sum.inr calls
            | .notFoundErr => Sum.inr calls
  else Sum.inr []

/-- Embedded from the source: `actionRemoveMember.Start`. When the targeted
member is not present in the deployment status it returns finished = true
with no error and no calls; otherwise it removes the server from the
cluster (for coordinators and dbservers), deletes the pod and PVC if named,
removes the member, updates the status topology, and checks that the member
is gone. -/
def actionRemoveMemberStart (ctx : RMContext) (a : RMAction) : RMResult :=
  match ctx.memberStatusByID a.memberID with
  | none => { finished := true, err := none, calls := [] }
  | some m =>
      match rmClusterSection ctx a m with
      | Sum.inl r => r
      | Sum.inr calls0 =>
          let afterPod :=
            if m.podName == "" then Sum.inr calls0
            else
              let calls1 := calls0 ++ [RMCall.deletePod m.podName]
              match ctx.deletePodResult with
              | .failedWith e => Sum.inl { finished := false, err := some e, calls := calls1 }
              | _ => Sum.inr calls1
          match afterPod with
          | Sum.inl r => r
          | Sum.inr calls1 =>
              let afterPvc :=
                if m.persistentVolumeClaimName == "" then Sum.inr calls1
                else
                  let calls2 := calls1 ++ [RMCall.deletePvc m.persistentVolumeClaimName]
                  match ctx.deletePvcResult with
                  | .failedWith e => Sum.inl { finished := false, err := some e, calls := calls2 }
                  | _ => Sum.inr calls2
              match afterPvc with
              | Sum.inl r => r
              | Sum.inr calls2 =>
                  let calls3 := calls2 ++ [RMCall.removeMemberByID a.memberID]
                  match ctx.removeMemberErr with
                  | some e => { finished := false, err := some e, calls := calls3 }
                  | none =>
                      match ctx.statusUpdateErr with
                      | some e => { finished := false, err := some e, calls := calls3 }
                      | none =>
                          if ctx.memberStillExistsAfterRemoval then
                            { finished := false,
                              err := some ("Member " ++ a.memberID ++ " still exists"),
                              calls := calls3 }
                          else { finished := true, err := none, calls := calls3 }

/-! ## Concrete sample values used by counterexamples and witnesses -/

/-- A sample spec with neither upload nor download set. -/
def sampleSpec : ArangoBackupSpec :=
  { deploymentName := "test-backup", options := none, upload := none, download := none }

/-- A sample spec whose download field is set. -/
def sampleDownloadSpec : ArangoBackupSpec :=
  { deploymentName := "test-backup", options := none, upload := none,
    download := some { repositoryURL := "s3:test", credentialsSecretName := "backup-secret",
                       id := "remote-1" } }

/-- A sample observation: the deployment exists, the DB-side backup is
present, no job activity, a successful create outcome. -/
def sampleObs : Observations :=
  { deploymentExists := true, dbSideBackupPresent := true, jobStatus := none,
    existingJob := none, freshJobID := "job-1",
    createOutcome := .success "backup-1" "3.8.0" 7, specChanged := false, wallClock := 7 }

/-- A sample Ready status whose associated backup carries the uploaded
marker. -/
def sampleReadyUploaded : ArangoBackupStatus :=
  { state := .ready, message := "", progress := none,
    backup := some { id := "backup-1", version := "3.8.0", uploaded := some true,
                     downloaded := none, createdAt := 7 },
    available := true, attempts := 0 }

/-- A sample member inspector state before any `RefreshState` call: the
members map is nil. -/
def sampleFreshInspector : StateInspectorData :=
  { members := none, state := zeroMemberInspState }

/-- A sample remove-member context whose member map is empty. -/
def sampleRMContext : RMContext :=
  { memberStatusByID := fun _ => none, databaseClientErr := none, removeServerErr := none,
    deploymentHealthErr := none, health := [], deletePodResult := .ok,
    deletePvcResult := .ok, removeMemberErr := none, statusUpdateErr := none,
    memberStillExistsAfterRemoval := false }

/-- A sample Ready status whose associated backup has no uploaded marker: a
fixpoint of the machine under `sampleSpec` and `sampleObs`. -/
def sampleReadyStatus : ArangoBackupStatus :=
  { state := .ready, message := "", progress := none,
    backup := some { id := "backup-1", version := "3.8.0", uploaded := none,
                     downloaded := none, createdAt := 7 },
    available := true, attempts := 0 }

/-- The world at the end of the concrete five-step trace: create a backup
through Pending and Create, request deletion, finalize. The create pass
issued one Create call and the finalize pass issued the Delete call for the
associated backup id. -/
def sampleDeletedTraceWorld : World :=
  { status := { state := .ready, message := "", progress := none,
                backup := some { id := "backup-1", version := "3.8.0", uploaded := none,
                                 downloaded := none, createdAt := 7 },
                available := true, attempts := 0 },
    db := { jobs := [] }, finalizer := false, deletionRequested := true,
    log := [SideEffect.deleteCall "backup-1", SideEffect.createCall none],
    everIds := ["backup-1"] }

/-! ## Invariants used by the trace theorems -/

/-- Number of `Upload`/`Download` calls in an effect log. -/
def jobCallCount (l : List SideEffect) : Nat :=
  l.countP SideEffect.isJobCall

/-- The availability invariant of reachable statuses: a Deleted status is
unavailable, while Ready and Upload statuses are available. -/
def availDeletedInv (st : ArangoBackupStatus) : Prop :=
  (st.state = .deleted → st.available = false) ∧
  ((st.state = .ready ∨ st.state = .upload) → st.available = true)

/-- Shape invariant of a status evolving under a fixed spec: states before
backup association have no associated backup, Create is only reached when
the spec does not request a download, the Download states are only reached
when it does, and the associated backup id agrees with `spec.download.id`
when a download is requested. -/
def statusShapeInv (sp : ArangoBackupSpec) (st : ArangoBackupStatus) : Prop :=
  ((st.state = .initial ∨ st.state = .pending) → st.backup = none) ∧
  (st.state = .create → st.backup = none ∧ sp.download = none) ∧
  (sp.download = none → st.state ≠ .download ∧ st.state ≠ .downloadError) ∧
  (∀ d, sp.download = some d → ∀ b, st.backup = some b → b.id = d.id)

/-- Consistency of the ghost record: every backup id ever persisted equals
the currently associated backup id (ids are stable along a trace). -/
def everIdsInv (w : World) : Prop :=
  match w.status.backup with
  | none => w.everIds = []
  | some b => ∀ i ∈ w.everIds, i = b.id

/-- Finalizer safety, accumulated: once the finalizer is cleared, a
`Delete` call was issued for every backup id ever persisted. -/
def finalizerInv (w : World) : Prop :=
  w.finalizer = false → ∀ i ∈ w.everIds, SideEffect.deleteCall i ∈ w.log

/-- Job-ledger invariant: at most one DB-side job runs at a time, and the
ledger records exactly the issued `Upload`/`Download` calls. -/
def jobLedgerInv (w : World) : Prop :=
  runningCount w.db ≤ 1 ∧ jobCallCount w.log = w.db.jobs.length

/-- Log purity under a download spec: no `Create` call is ever issued, and
every `Download` call targets `spec.download.id`. -/
def downloadLogInv (d : ArangoBackupSpecDownload) (l : List SideEffect) : Prop :=
  ∀ e ∈ l, e.isCreate = false ∧
    (∀ i r c, e = SideEffect.downloadCall i r c → i = d.id)

/-! ## Helper lemmas about the state machine -/

/-- A status application that leaves the status unchanged issues no side
effects: every branch of the machine that issues a call also changes some
status field. -/
theorem machine_fixpoint_silent (st : ArangoBackupStatus) (sp : ArangoBackupSpec)
    (obs : Observations) (h : (arangoBackupStateMachine st sp obs).1 = st) :
    (arangoBackupStateMachine st sp obs).2 = [] := by
  obtain ⟨state, msg, prog, bkp, avail, att⟩ := st
  obtain ⟨dn, opts, up, dl⟩ := sp
  obtain ⟨de, dbp, js, ej, fj, co, sc, wc⟩ := obs
  unfold arangoBackupStateMachine at h ⊢
  cases state
  case initial => simp_all
  case pending =>
    cases de <;> simp_all
    cases dl <;> simp_all
  case scheduled => simp_all
  case create =>
    cases co <;> simp_all
    split at h <;> simp_all
  case download =>
    cases dl <;> simp_all
    cases prog <;> simp_all
    · cases ej <;> simp_all
    · cases js <;> simp_all
      repeat' split
      all_goals simp_all
  case downloadError =>
    cases dl <;> simp_all
    cases sc <;> simp_all
  case ready =>
    cases bkp <;> simp_all
    repeat' split
    all_goals simp_all
  case upload =>
    cases up <;> cases bkp <;> simp_all
    cases prog <;> simp_all
    · cases ej <;> simp_all
    · cases js <;> simp_all
      repeat' split
      all_goals simp_all
  case deleted => cases dl <;> simp_all
  case failed => simp_all

/-- Full characterization of the side effects of one machine application:
either nothing is issued, or a single `Create` from the Create state, or a
single `Download` from the Download state with no recorded job handle and no
job discovered by the recovery lookup, or a single `Upload` from the Upload
state under the same conditions. -/
theorem machine_effects_spec (st : ArangoBackupStatus) (sp : ArangoBackupSpec)
    (obs : Observations) :
    (arangoBackupStateMachine st sp obs).2 = [] ∨
    ((arangoBackupStateMachine st sp obs).2 = [SideEffect.createCall sp.options] ∧
      st.state = .create) ∨
    (∃ d, sp.download = some d ∧ st.state = .download ∧ st.progress = none ∧
      obs.existingJob = none ∧
      (arangoBackupStateMachine st sp obs).2 =
        [SideEffect.downloadCall d.id d.repositoryURL d.credentialsSecretName]) ∨
    (∃ u, ∃ b, sp.upload = some u ∧ st.backup = some b ∧ st.state = .upload ∧
      st.progress = none ∧ obs.existingJob = none ∧
      (arangoBackupStateMachine st sp obs).2 =
        [SideEffect.uploadCall b.id u.repositoryURL u.credentialsSecretName]) := by
  obtain ⟨state, msg, prog, bkp, avail, att⟩ := st
  obtain ⟨dn, opts, up, dl⟩ := sp
  obtain ⟨de, dbp, js, ej, fj, co, sc, wc⟩ := obs
  unfold arangoBackupStateMachine
  cases state
  case initial => simp
  case pending =>
    cases de <;> simp
    cases dl <;> simp
  case scheduled => simp
  case create =>
    cases co <;> simp
    split <;> simp
  case download =>
    cases dl <;> simp
    cases prog <;> simp
    · cases ej <;> simp
    · cases js <;> simp
      repeat' split
      all_goals simp
  case downloadError =>
    cases dl <;> simp
    cases sc <;> simp
  case ready =>
    cases bkp <;> simp
    repeat' split
    all_goals simp
  case upload =>
    cases up <;> cases bkp <;> simp
    cases prog <;> simp
    · cases ej <;> simp
    · cases js <;> simp
      repeat' split
      all_goals simp
  case deleted => cases dl <;> simp
  case failed => simp

/-- One machine application preserves the availability invariant. -/
theorem machine_availInv (st : ArangoBackupStatus) (sp : ArangoBackupSpec)
    (obs : Observations) (h : availDeletedInv st) :
    availDeletedInv (arangoBackupStateMachine st sp obs).1 := by
  obtain ⟨state, msg, prog, bkp, avail, att⟩ := st
  obtain ⟨dn, opts, up, dl⟩ := sp
  obtain ⟨de, dbp, js, ej, fj, co, sc, wc⟩ := obs
  unfold availDeletedInv at h ⊢
  unfold arangoBackupStateMachine
  cases state
  case initial => simp_all
  case pending =>
    cases de <;> simp_all
    cases dl <;> simp_all
  case scheduled => simp_all
  case create =>
    cases co <;> simp_all
    split <;> simp_all
  case download =>
    cases dl <;> simp_all
    cases prog <;> simp_all
    · cases ej <;> simp_all
    · cases js <;> simp_all
      repeat' split
      all_goals simp_all
  case downloadError =>
    cases dl <;> simp_all
    cases sc <;> simp_all
  case ready =>
    cases bkp <;> simp_all
    repeat' split
    all_goals simp_all
  case upload =>
    cases up <;> cases bkp <;> simp_all
    cases prog <;> simp_all
    · cases ej <;> simp_all
    · cases js <;> simp_all
      repeat' split
      all_goals simp_all
  case deleted => cases dl <;> simp_all
  case failed => simp_all

/-- One machine application preserves the shape invariant relating the
status to the fixed spec. -/
theorem machine_shapeInv (st : ArangoBackupStatus) (sp : ArangoBackupSpec)
    (obs : Observations) (h : statusShapeInv sp st) :
    statusShapeInv sp (arangoBackupStateMachine st sp obs).1 := by
  obtain ⟨state, msg, prog, bkp, avail, att⟩ := st
  obtain ⟨dn, opts, up, dl⟩ := sp
  obtain ⟨de, dbp, js, ej, fj, co, sc, wc⟩ := obs
  unfold statusShapeInv at h ⊢
  unfold arangoBackupStateMachine
  cases state
  case initial => simp_all
  case pending =>
    cases de <;> simp_all
    cases dl <;> simp_all
  case scheduled => simp_all
  case create =>
    cases co <;> simp_all
    split <;> simp_all
  case download =>
    cases dl <;> simp_all
    cases prog <;> simp_all
    · cases ej <;> simp_all
    · cases js <;> simp_all
      repeat' split
      all_goals simp_all
  case downloadError =>
    cases dl <;> simp_all
    cases sc <;> simp_all
  case ready =>
    cases bkp <;> simp_all
    repeat' split
    all_goals simp_all
  case upload =>
    cases up <;> cases bkp <;> simp_all
    cases prog <;> simp_all
    · cases ej <;> simp_all
    · cases js <;> simp_all
      repeat' split
      all_goals simp_all
  case deleted => cases dl <;> simp_all
  case failed => simp_all

/-- An associated backup survives one machine application with its id
unchanged (under the shape invariant). -/
theorem machine_backup_stable (st : ArangoBackupStatus) (sp : ArangoBackupSpec)
    (obs : Observations) (h : statusShapeInv sp st) (b : ArangoBackupDetails)
    (hb : st.backup = some b) :
    ∃ b2, (arangoBackupStateMachine st sp obs).1.backup = some b2 ∧ b2.id = b.id := by
  obtain ⟨state, msg, prog, bkp, avail, att⟩ := st
  obtain ⟨dn, opts, up, dl⟩ := sp
  obtain ⟨de, dbp, js, ej, fj, co, sc, wc⟩ := obs
  unfold statusShapeInv at h
  unfold arangoBackupStateMachine
  cases state
  case initial => simp_all
  case pending =>
    cases de <;> simp_all
  case scheduled => simp_all
  case create =>
    cases co <;> simp_all
  case download =>
    cases dl <;> simp_all
    cases prog <;> simp_all
    · cases ej <;> simp_all
    · cases js <;> simp_all
      repeat' split
      all_goals simp_all
  case downloadError =>
    cases dl <;> simp_all
    cases sc <;> simp_all
  case ready =>
    cases bkp <;> simp_all
    repeat' split
    all_goals simp_all
  case upload =>
    cases up <;> cases bkp <;> simp_all
    cases prog <;> simp_all
    · cases ej <;> simp_all
    · cases js <;> simp_all
      repeat' split
      all_goals simp_all
  case deleted => cases dl <;> simp_all
  case failed => simp_all

/-- The in-flight write (phase one of section 4.3 step 5) preserves the
availability invariant: it only clears the job handle. -/
theorem availInv_inFlight (st : ArangoBackupStatus) (h : availDeletedInv st) :
    availDeletedInv (inFlightWrite st) := by
  simpa [availDeletedInv, inFlightWrite] using h

/-- Every reachable world satisfies the availability invariant. -/
theorem reachable_availInv (sp : ArangoBackupSpec) (w : World)
    (h : ReachableWorld sp w) : availDeletedInv w.status := by
  induction h with
  | init => simp [availDeletedInv, initialWorld, initialBackupStatus]
  | step hr hs ih =>
      cases hs with
      | reconcile obs hfin hdel hobs => exact machine_availInv _ _ _ ih
      | reconcileCrashEarly obs hfin hdel hobs hjob =>
          exact availInv_inFlight _ (machine_availInv _ _ _ ih)
      | reconcileCrashMid obs hfin hdel hobs hjob =>
          exact availInv_inFlight _ (machine_availInv _ _ _ ih)
      | jobTerminates n ph hrun hterm => exact ih
      | requestDeletion hdel => exact ih
      | finalize hfin hdel => exact ih

/-! ## Claim theorems -/

/-- C2 counterexample: applying the state machine to its own output under
the same spec and observations does not in general return the same next
status: a fresh resource moves from the empty state to Pending, and a
second application moves Pending to Create. -/
theorem C2_counterexample :
    (arangoBackupStateMachine
        (arangoBackupStateMachine initialBackupStatus sampleSpec sampleObs).1
        sampleSpec sampleObs).1 ≠
      (arangoBackupStateMachine initialBackupStatus sampleSpec sampleObs).1 := by
  decide

/-- C2 (amended): whenever one application of the state machine leaves the
status unchanged, re-applying the machine to its own output under the same
spec and observations returns the same status and an empty set of side
effects. -/
theorem C2_idempotent_from_fixpoint (st : ArangoBackupStatus) (sp : ArangoBackupSpec)
    (obs : Observations) (h : (arangoBackupStateMachine st sp obs).1 = st) :
    arangoBackupStateMachine (arangoBackupStateMachine st sp obs).1 sp obs = (st, []) := by
  have h2 := machine_fixpoint_silent st sp obs h
  rw [h, Prod.ext_iff]
  exact ⟨h, h2⟩

/-- Witness for the amended C2 at a concrete Ready fixpoint. -/
theorem C2_idempotent_from_fixpoint_witness :
    arangoBackupStateMachine
        (arangoBackupStateMachine sampleReadyStatus sampleSpec sampleObs).1
        sampleSpec sampleObs = (sampleReadyStatus, []) :=
  C2_idempotent_from_fixpoint sampleReadyStatus sampleSpec sampleObs (by decide)

/-- C3 counterexample: the fresh status of a reachable world has
available = false while its state is not Deleted, so
available = false does not imply state = Deleted over all reachable
statuses. -/
theorem C3_counterexample :
    ReachableWorld sampleSpec initialWorld ∧
    initialWorld.status.available = false ∧
    initialWorld.status.state ≠ ArangoBackupState.deleted :=
  ⟨ReachableWorld.init, by decide, by decide⟩

/-- C3 (amended): for every reachable status, state = Deleted implies
available = false, the states Ready and Upload imply available = true, and
restricted to statuses in the post-association states Ready, Upload and
Deleted the biconditional of the claim holds: available = false exactly
when state = Deleted. -/
theorem C3_available_iff_not_deleted (sp : ArangoBackupSpec) (w : World)
    (h : ReachableWorld sp w) :
    (w.status.state = .deleted → w.status.available = false) ∧
    ((w.status.state = .ready ∨ w.status.state = .upload) → w.status.available = true) ∧
    ((w.status.state = .ready ∨ w.status.state = .upload ∨ w.status.state = .deleted) →
      (w.status.available = false ↔ w.status.state = .deleted)) := by
  obtain ⟨h1, h2⟩ := reachable_availInv sp w h
  refine ⟨h1, h2, ?_⟩
  rintro (hs | hs | hs)
  · rw [h2 (Or.inl hs)]
    simp [hs]
  · rw [h2 (Or.inr hs)]
    simp [hs]
  · simp [hs, h1 hs]

/-- Witness for the amended C3 at the initial world. -/
theorem C3_available_iff_not_deleted_witness :
    (initialWorld.status.state = .deleted → initialWorld.status.available = false) ∧
    ((initialWorld.status.state = .ready ∨ initialWorld.status.state = .upload) →
      initialWorld.status.available = true) ∧
    ((initialWorld.status.state = .ready ∨ initialWorld.status.state = .upload ∨
        initialWorld.status.state = .deleted) →
      (initialWorld.status.available = false ↔ initialWorld.status.state = .deleted)) :=
  C3_available_iff_not_deleted sampleSpec initialWorld ReachableWorld.init

/-- C6: from a Ready status whose backup carries the uploaded marker, a
reconcile with spec.upload cleared returns the same status with only the
uploaded marker removed, keeps the state Ready, and issues no DB call. -/
theorem C6_clear_uploaded_marker (st : ArangoBackupStatus) (sp : ArangoBackupSpec)
    (obs : Observations) (b : ArangoBackupDetails)
    (hs : st.state = .ready) (hb : st.backup = some b) (hu : b.uploaded = some true)
    (hn : sp.upload = none) :
    arangoBackupStateMachine st sp obs =
      ({ st with backup := some { b with uploaded := none } }, []) := by
  simp [arangoBackupStateMachine, hs, hb, hu, hn]

/-- Witness for C6 at a concrete Ready uploaded status. -/
theorem C6_clear_uploaded_marker_witness :
    arangoBackupStateMachine sampleReadyUploaded sampleSpec sampleObs =
      ({ sampleReadyUploaded with
          backup := some { id := "backup-1", version := "3.8.0", uploaded := none,
                           downloaded := none, createdAt := 7 } }, []) :=
  C6_clear_uploaded_marker sampleReadyUploaded sampleSpec sampleObs
    { id := "backup-1", version := "3.8.0", uploaded := some true,
      downloaded := none, createdAt := 7 } rfl rfl rfl rfl

/-- C7: when no Backup with the requested namespace and name exists, the
restore bridge lookup returns found = false, and the Deployment controller
consequently records restored = false together with a non-empty message. -/
theorem C7_missing_backup_not_restored (backups : List BackupResource) (ns nm : String)
    (h : ∀ b ∈ backups, ¬(b.inNamespace = ns ∧ b.name = nm)) :
    restoreBridgeLookup backups ns nm =
      { found := false, ready := false, dbBackupID := "" } ∧
    (deploymentApplyRestore backups ns nm).restored = false ∧
    (deploymentApplyRestore backups ns nm).message ≠ "" := by
  have hfind : backups.find? (fun b => b.inNamespace == ns && b.name == nm) = none := by
    rw [List.find?_eq_none]
    intro b hb
    have hnb := h b hb
    simp only [Bool.and_eq_true, beq_iff_eq]
    exact fun hc => hnb ⟨hc.1, hc.2⟩
  unfold deploymentApplyRestore restoreBridgeLookup
  rw [hfind]
  refine ⟨rfl, by simp, by simp⟩

/-- Witness for C7 with an empty backup collection. -/
theorem C7_missing_backup_not_restored_witness :
    restoreBridgeLookup [] "ns" "does-not-exist" =
      { found := false, ready := false, dbBackupID := "" } ∧
    (deploymentApplyRestore [] "ns" "does-not-exist").restored = false ∧
    (deploymentApplyRestore [] "ns" "does-not-exist").message ≠ "" :=
  C7_missing_backup_not_restored [] "ns" "does-not-exist" (by simp)

/-- C8: before any RefreshState call the members map is nil, and MemberState
returns the zero State together with false for every member id instead of
failing. -/
theorem C8_member_state_nil_map (s : StateInspectorData) (id : String)
    (h : s.members = none) :
    memberStateLookup s id = (zeroMemberInspState, false) := by
  unfold memberStateLookup
  rw [h]

/-- Witness for C8 at a fresh inspector. -/
theorem C8_member_state_nil_map_witness :
    memberStateLookup sampleFreshInspector "member-1" = (zeroMemberInspState, false) :=
  C8_member_state_nil_map sampleFreshInspector "member-1" rfl

/-- C9: actionRemoveMember.Start returns finished = true with no error and
issues no cluster, pod or PVC deletion call when the targeted member id is
not present in the deployment status. -/
theorem C9_remove_member_absent (ctx : RMContext) (a : RMAction)
    (h : ctx.memberStatusByID a.memberID = none) :
    actionRemoveMemberStart ctx a = { finished := true, err := none, calls := [] } := by
  unfold actionRemoveMemberStart
  rw [h]

/-- Witness for C9 at a context whose member map is empty. -/
theorem C9_remove_member_absent_witness :
    actionRemoveMemberStart sampleRMContext { memberID := "m1", group := .dbservers } =
      { finished := true, err := none, calls := [] } :=
  C9_remove_member_absent sampleRMContext { memberID := "m1", group := .dbservers } rfl

/-- C10: the event produced by State.Log always carries the boolean field
reachable = false: in the unreachable branch together with the
reachableError field, and in the reachable branch as well, so the logged
field never reflects actual reachability. -/
theorem C10_log_reachable_constant (s : MemberInspState) (event : LogEvent) :
    (LogField.boolField "reachable" false ∈ s.logEvent event) ∧
    (s.isReachable = true →
      s.logEvent event = event ++ [LogField.boolField "reachable" false]) ∧
    (s.isReachable = false →
      s.logEvent event = event ++ [LogField.boolField "reachable" false,
                                   LogField.anErr "reachableError" s.reachable]) := by
  unfold MemberInspState.logEvent
  cases hr : s.isReachable <;> simp [hr]

/-- Witness for C10 at the zero State and a fresh event. -/
theorem C10_log_reachable_constant_witness :
    (LogField.boolField "reachable" false ∈ zeroMemberInspState.logEvent []) ∧
    (zeroMemberInspState.isReachable = true →
      zeroMemberInspState.logEvent [] = [] ++ [LogField.boolField "reachable" false]) ∧
    (zeroMemberInspState.isReachable = false →
      zeroMemberInspState.logEvent [] =
        [] ++ [LogField.boolField "reachable" false,
               LogField.anErr "reachableError" zeroMemberInspState.reachable]) :=
  C10_log_reachable_constant zeroMemberInspState []

/-! ## Job-ledger lemmas for the in-flight bound -/

/-- Replacing one list element by an element not counted by `p` cannot
increase the `p` count. -/
theorem countP_set_le {α : Type} (p : α → Bool) (l : List α) (n : Nat) (a : α)
    (ha : p a = false) : (l.set n a).countP p ≤ l.countP p := by
  induction l generalizing n with
  | nil => simp
  | cons x xs ih =>
      cases n with
      | zero =>
          simp only [List.set, List.countP_cons, ha]
          simp
      | succ m =>
          simp only [List.set, List.countP_cons]
          exact Nat.add_le_add_right (ih m) _

/-- The recovery lookup reports no job exactly when no ledger entry is
running. -/
theorem runningJob_none_iff (db : DBJobs) :
    runningJob db = none ↔ runningCount db = 0 := by
  unfold runningJob runningCount
  rw [Option.map_eq_none', List.find?_eq_none, List.countP_eq_zero]

/-- Starting the jobs of an effect list adds exactly one running ledger
entry per `Upload`/`Download` call. -/
theorem runningCount_startJobs (db : DBJobs) (obs : Observations)
    (effs : List SideEffect) :
    runningCount (startJobs db obs effs) = runningCount db + jobCallCount effs := by
  unfold runningCount startJobs jobCallCount
  rw [List.countP_append, List.countP_map]
  simp [List.countP_eq_length_filter]

/-- Starting the jobs of an effect list grows the ledger by the number of
`Upload`/`Download` calls. -/
theorem length_startJobs (db : DBJobs) (obs : Observations) (effs : List SideEffect) :
    (startJobs db obs effs).jobs.length = db.jobs.length + jobCallCount effs := by
  unfold startJobs jobCallCount
  simp [List.countP_eq_length_filter]

/-- Terminating a ledger entry keeps the ledger length. -/
theorem length_terminateJob (db : DBJobs) (n : Nat) (ph : JobPhase) :
    (terminateJob db n ph).jobs.length = db.jobs.length := by
  unfold terminateJob
  exact List.length_set _ _ _

/-- Terminating a ledger entry with a terminal phase cannot increase the
number of running entries. -/
theorem runningCount_terminateJob_le (db : DBJobs) (n : Nat) (ph : JobPhase)
    (hterm : ph ≠ .running) :
    runningCount (terminateJob db n ph) ≤ runningCount db := by
  unfold runningCount terminateJob
  refine countP_set_le _ _ _ _ ?_
  have : (ph == JobPhase.running) = false := by
    cases ph <;> simp_all
  cases hget : db.jobs.get? n <;> simp [this]

/-- The ledger length splits into running and completed entries. -/
theorem length_running_completed (db : DBJobs) :
    db.jobs.length = runningCount db + completedCount db := by
  unfold runningCount completedCount
  have h := List.length_eq_countP_add_countP (fun j => j.phase == .running) db.jobs
  have heq : (fun (j : DBJob) => decide ¬((j.phase == .running) = true)) =
      fun (j : DBJob) => !(j.phase == .running) := by
    funext j
    cases hj : (j.phase == JobPhase.running) <;> simp [hj]
  rw [heq] at h
  exact h

/-- A machine application issues at most one `Upload`/`Download` call. -/
theorem machine_jobCallCount_le (st : ArangoBackupStatus) (sp : ArangoBackupSpec)
    (obs : Observations) :
    jobCallCount (arangoBackupStateMachine st sp obs).2 ≤ 1 := by
  rcases machine_effects_spec st sp obs with h | ⟨h, _⟩ | ⟨d, _, _, _, _, h⟩ | ⟨u, b, _, _, _, _, _, h⟩ <;>
    simp [jobCallCount, h, SideEffect.isJobCall, SideEffect.isCreate]

/-- A machine application that issues an `Upload`/`Download` call observed
no job through the recovery lookup. -/
theorem machine_jobCall_existing (st : ArangoBackupStatus) (sp : ArangoBackupSpec)
    (obs : Observations)
    (h : (arangoBackupStateMachine st sp obs).2.any SideEffect.isJobCall = true) :
    obs.existingJob = none := by
  rcases machine_effects_spec st sp obs with he | ⟨he, _⟩ | ⟨d, _, _, _, hej, he⟩ |
      ⟨u, b, _, _, _, _, hej, he⟩ <;>
    simp [he, SideEffect.isJobCall, SideEffect.isCreate] at h ⊢ <;> exact hej

/-- An effect list with no `Upload`/`Download` call contributes none to the
call count. -/
theorem jobCallCount_eq_zero_of_not_any (effs : List SideEffect)
    (h : effs.any SideEffect.isJobCall = false) : jobCallCount effs = 0 := by
  unfold jobCallCount
  rw [List.countP_eq_zero]
  intro e he hcall
  rw [Bool.eq_false_iff] at h
  exact h (List.any_eq_true.2 ⟨e, he, hcall⟩)

/-- Every reachable world satisfies the job-ledger invariant: at most one
job runs at a time and the log matches the ledger. -/
theorem reachable_jobLedgerInv (sp : ArangoBackupSpec) (w : World)
    (h : ReachableWorld sp w) : jobLedgerInv w := by
  induction h with
  | init =>
      constructor <;> simp [initialWorld, runningCount, jobCallCount]
  | @step w w2 hr hs ih =>
      obtain ⟨ih1, ih2⟩ := ih
      cases hs with
      | reconcile obs hfin hdel hobs =>
          unfold jobLedgerInv
          dsimp only
          constructor
          · rw [runningCount_startJobs]
            by_cases hjc : (arangoBackupStateMachine w.status sp obs).2.any SideEffect.isJobCall = true
            · have hex := machine_jobCall_existing w.status sp obs hjc
              have h0 : runningCount w.db = 0 := by
                rw [← runningJob_none_iff, ← hobs]
                exact hex
              have hle := machine_jobCallCount_le w.status sp obs
              omega
            · have h0 := jobCallCount_eq_zero_of_not_any _ (Bool.eq_false_iff.2 hjc)
              omega
          · rw [length_startJobs]
            unfold jobCallCount at ih2 ⊢
            rw [List.countP_append]
            omega
      | reconcileCrashEarly obs hfin hdel hobs hjob => exact ⟨ih1, ih2⟩
      | reconcileCrashMid obs hfin hdel hobs hjob =>
          unfold jobLedgerInv
          dsimp only
          constructor
          · rw [runningCount_startJobs]
            have hex := machine_jobCall_existing w.status sp obs hjob
            have h0 : runningCount w.db = 0 := by
              rw [← runningJob_none_iff, ← hobs]
              exact hex
            have hle := machine_jobCallCount_le w.status sp obs
            omega
          · rw [length_startJobs]
            unfold jobCallCount at ih2 ⊢
            rw [List.countP_append]
            omega
      | jobTerminates n ph hrun hterm =>
          unfold jobLedgerInv
          dsimp only
          constructor
          · exact le_trans (runningCount_terminateJob_le w.db n ph hterm) ih1
          · rw [length_terminateJob]
            exact ih2
      | requestDeletion hdel => exact ⟨ih1, ih2⟩
      | finalize hfin hdel =>
          unfold jobLedgerInv
          dsimp only
          refine ⟨ih1, ?_⟩
          unfold jobCallCount at ih2 ⊢
          rw [List.countP_append]
          have hdc : (match w.status.backup with
                  | some b => [SideEffect.deleteCall b.id]
                  | none => []).countP SideEffect.isJobCall = 0 := by
            cases w.status.backup <;> simp [SideEffect.isJobCall]
          omega

/-- C1: along every reconcile trace of one Backup CR, including traces with
a controller crash between the two status writes of section 4.3 step 5, the
number of issued Upload/Download DB calls exceeds the number of completed
jobs by at most one at every point. -/
theorem C1_at_most_one_job_in_flight (sp : ArangoBackupSpec) (w : World)
    (h : ReachableWorld sp w) :
    jobCallCount w.log ≤ completedCount w.db + 1 := by
  obtain ⟨h1, h2⟩ := reachable_jobLedgerInv sp w h
  have hlen := length_running_completed w.db
  omega

/-- Witness for C1 at the initial world. -/
theorem C1_at_most_one_job_in_flight_witness :
    jobCallCount initialWorld.log ≤ completedCount initialWorld.db + 1 :=
  C1_at_most_one_job_in_flight sampleSpec initialWorld ReachableWorld.init

/-! ## Shape invariant along traces, and the download-only discipline -/

/-- The in-flight write preserves the shape invariant: it only clears the
job handle. -/
theorem shapeInv_inFlight (sp : ArangoBackupSpec) (st : ArangoBackupStatus)
    (h : statusShapeInv sp st) : statusShapeInv sp (inFlightWrite st) := by
  simpa [statusShapeInv, inFlightWrite] using h

/-- Every reachable world satisfies the shape invariant. -/
theorem reachable_shapeInv (sp : ArangoBackupSpec) (w : World)
    (h : ReachableWorld sp w) : statusShapeInv sp w.status := by
  induction h with
  | init => simp [statusShapeInv, initialWorld, initialBackupStatus]
  | @step w w2 hr hs ih =>
      cases hs with
      | reconcile obs hfin hdel hobs => exact machine_shapeInv w.status sp obs ih
      | reconcileCrashEarly obs hfin hdel hobs hjob =>
          exact shapeInv_inFlight sp _ (machine_shapeInv w.status sp obs ih)
      | reconcileCrashMid obs hfin hdel hobs hjob =>
          exact shapeInv_inFlight sp _ (machine_shapeInv w.status sp obs ih)
      | jobTerminates n ph hrun hterm => exact ih
      | requestDeletion hdel => exact ih
      | finalize hfin hdel => exact ih

/-- A machine application from a non-Create state issues no Create call. -/
theorem machine_no_create_effect (st : ArangoBackupStatus) (sp : ArangoBackupSpec)
    (obs : Observations) (h : st.state ≠ .create) :
    ∀ e ∈ (arangoBackupStateMachine st sp obs).2, e.isCreate = false := by
  rcases machine_effects_spec st sp obs with he | ⟨he, hst⟩ | ⟨d, _, _, _, _, he⟩ |
      ⟨u, b, _, _, _, _, _, he⟩
  · rw [he]
    simp
  · exact absurd hst h
  · rw [he]
    simp [SideEffect.isCreate]
  · rw [he]
    simp [SideEffect.isCreate]

/-- Every Download call a machine application issues targets the id of the
download spec. -/
theorem machine_download_target (st : ArangoBackupStatus) (sp : ArangoBackupSpec)
    (obs : Observations) (d : ArangoBackupSpecDownload) (hd : sp.download = some d) :
    ∀ e ∈ (arangoBackupStateMachine st sp obs).2,
      ∀ i r c, e = SideEffect.downloadCall i r c → i = d.id := by
  rcases machine_effects_spec st sp obs with he | ⟨he, hst⟩ | ⟨d2, hd2, _, _, _, he⟩ |
      ⟨u, b, _, _, _, _, _, he⟩ <;> rw [he]
  · simp
  · intro e hme i r c hei
    rw [List.mem_singleton] at hme
    subst hme
    cases hei
  · intro e hme i r c hei
    rw [List.mem_singleton] at hme
    subst hme
    injection hei with h1 h2 h3
    rw [hd] at hd2
    injection hd2 with h4
    rw [← h1, h4]
  · intro e hme i r c hei
    rw [List.mem_singleton] at hme
    subst hme
    cases hei

/-- C4: along every reconcile trace of a Backup CR whose download field is
set, no Create call is ever issued, and every backup-producing call is a
Download targeting spec.download.id. -/
theorem C4_download_never_creates (sp : ArangoBackupSpec)
    (d : ArangoBackupSpecDownload) (hd : sp.download = some d) (w : World)
    (h : ReachableWorld sp w) : downloadLogInv d w.log := by
  induction h with
  | init =>
      intro e he
      cases he
  | @step w w2 hr hs ih =>
      have hshape := reachable_shapeInv sp w hr
      have hnc : w.status.state ≠ .create := by
        intro hc
        obtain ⟨hn2⟩ := (hshape.2.1 hc).2.symm.trans hd
      cases hs with
      | reconcile obs hfin hdel hobs =>
          intro e he
          rcases List.mem_append.1 he with he2 | he2
          · exact ⟨machine_no_create_effect w.status sp obs hnc e he2,
                   machine_download_target w.status sp obs d hd e he2⟩
          · exact ih e he2
      | reconcileCrashEarly obs hfin hdel hobs hjob => exact ih
      | reconcileCrashMid obs hfin hdel hobs hjob =>
          intro e he
          rcases List.mem_append.1 he with he2 | he2
          · exact ⟨machine_no_create_effect w.status sp obs hnc e he2,
                   machine_download_target w.status sp obs d hd e he2⟩
          · exact ih e he2
      | jobTerminates n ph hrun hterm => exact ih
      | requestDeletion hdel => exact ih
      | finalize hfin hdel =>
          intro e he
          rcases List.mem_append.1 he with he2 | he2
          · cases hbk : w.status.backup with
            | some b =>
                simp only [hbk, List.mem_singleton] at he2
                subst he2
                exact ⟨rfl, fun i r c hei => by cases hei⟩
            | none =>
                simp only [hbk] at he2
                cases he2
          · exact ih e he2

/-- Witness for C4 at the initial world under a download spec. -/
theorem C4_download_never_creates_witness :
    downloadLogInv { repositoryURL := "s3:test", credentialsSecretName := "backup-secret",
                     id := "remote-1" } initialWorld.log :=
  C4_download_never_creates sampleDownloadSpec
    { repositoryURL := "s3:test", credentialsSecretName := "backup-secret", id := "remote-1" }
    rfl initialWorld ReachableWorld.init

/-! ## Finalizer safety -/

/-- The in-flight write keeps the associated backup. -/
theorem inFlight_backup (st : ArangoBackupStatus) :
    (inFlightWrite st).backup = st.backup := rfl

/-- Updating the ghost record against a status whose backup id is stable
keeps the record consistent. -/
theorem everIds_update_inv (ever : List String) (stOld stNew : ArangoBackupStatus)
    (hstable : ∀ b, stOld.backup = some b →
      ∃ b2, stNew.backup = some b2 ∧ b2.id = b.id)
    (hinv : match stOld.backup with
            | none => ever = []
            | some b => ∀ i ∈ ever, i = b.id) :
    match stNew.backup with
    | none => recordEverIds ever stNew = []
    | some b2 => ∀ i ∈ recordEverIds ever stNew, i = b2.id := by
  cases hOld : stOld.backup with
  | none =>
      rw [hOld] at hinv
      subst hinv
      cases hNew : stNew.backup with
      | none => simp [recordEverIds, hNew]
      | some b2 => simp [recordEverIds, hNew]
  | some b =>
      obtain ⟨b2, hNew, hid⟩ := hstable b hOld
      rw [hOld] at hinv
      rw [hNew]
      unfold recordEverIds
      rw [hNew]
      dsimp only
      split
      · intro i hi
        rw [hinv i hi, hid]
      · intro i hi
        rcases List.mem_cons.1 hi with rfl | hi2
        · rfl
        · rw [hinv i hi2, hid]

/-- Every reachable world keeps the ghost record consistent: every backup id
ever persisted equals the id of the currently associated backup. -/
theorem reachable_everIdsInv (sp : ArangoBackupSpec) (w : World)
    (h : ReachableWorld sp w) : everIdsInv w := by
  induction h with
  | init => simp [everIdsInv, initialWorld, initialBackupStatus]
  | @step w w2 hr hs ih =>
      have hshape := reachable_shapeInv sp w hr
      unfold everIdsInv at ih ⊢
      cases hs with
      | reconcile obs hfin hdel hobs =>
          exact everIds_update_inv w.everIds w.status _
            (fun b hb => machine_backup_stable w.status sp obs hshape b hb) ih
      | reconcileCrashEarly obs hfin hdel hobs hjob =>
          exact everIds_update_inv w.everIds w.status _
            (fun b hb => machine_backup_stable w.status sp obs hshape b hb) ih
      | reconcileCrashMid obs hfin hdel hobs hjob =>
          exact everIds_update_inv w.everIds w.status _
            (fun b hb => machine_backup_stable w.status sp obs hshape b hb) ih
      | jobTerminates n ph hrun hterm => exact ih
      | requestDeletion hdel => exact ih
      | finalize hfin hdel => exact ih

/-- Every reachable world satisfies the accumulated finalizer-safety
invariant. -/
theorem reachable_finalizerInv (sp : ArangoBackupSpec) (w : World)
    (h : ReachableWorld sp w) : finalizerInv w := by
  induction h with
  | init =>
      intro hf
      simp [initialWorld] at hf
  | @step w w2 hr hs ih =>
      cases hs with
      | reconcile obs hfin hdel hobs =>
          intro hf
          rw [hfin] at hf
          simp at hf
      | reconcileCrashEarly obs hfin hdel hobs hjob =>
          intro hf
          rw [hfin] at hf
          simp at hf
      | reconcileCrashMid obs hfin hdel hobs hjob =>
          intro hf
          rw [hfin] at hf
          simp at hf
      | jobTerminates n ph hrun hterm => exact ih
      | requestDeletion hdel => exact ih
      | finalize hfin hdel =>
          intro _ i hi
          have hev := reachable_everIdsInv sp w hr
          unfold everIdsInv at hev
          cases hbk : w.status.backup with
          | none =>
              rw [hbk] at hev
              rw [hev] at hi
              cases hi
          | some b =>
              rw [hbk] at hev
              rw [hev i hi]
              simp [hbk]

/-- C5: for every reconcile trace that cleared the finalizer (the CR was
deleted), every backup id ever recorded in the persisted status had a
Delete call issued for it, and the Delete was issued no later than the pass
that cleared the finalizer. -/
theorem C5_finalizer_safety (sp : ArangoBackupSpec) (w : World)
    (h : ReachableWorld sp w) (hfin : w.finalizer = false) :
    ∀ i ∈ w.everIds, SideEffect.deleteCall i ∈ w.log :=
  reachable_finalizerInv sp w h hfin

/-- Witness for C5 along a concrete five-step trace that creates a backup
and then deletes the CR: the Delete call for the created backup id is in the
log once the finalizer is cleared. -/
theorem C5_finalizer_safety_witness :
    SideEffect.deleteCall "backup-1" ∈ sampleDeletedTraceWorld.log := by
  refine C5_finalizer_safety sampleSpec sampleDeletedTraceWorld ?_ rfl "backup-1" ?_
  · exact ReachableWorld.step
      (ReachableWorld.step
        (ReachableWorld.step
          (ReachableWorld.step
            (ReachableWorld.step ReachableWorld.init
              (TraceStep.reconcile initialWorld sampleObs rfl rfl rfl))
            (TraceStep.reconcile _ sampleObs rfl rfl rfl))
          (TraceStep.reconcile _ sampleObs rfl rfl rfl))
        (TraceStep.requestDeletion _ rfl))
      (TraceStep.finalize _ rfl rfl)
  · simp [sampleDeletedTraceWorld]

end KubeArango
